import Mathlib

/-!
Verification of the arbitrage-bot repository against its specification.

The on-chain settlement contract (`src/contracts/ArbritageExecutor.sol`) is
embedded as pure Lean functions over an explicit contract state; external
calls (DEX leg calls, ERC20 balance queries / transfers) are modelled by an
environment record supplying their outcomes, and the EVM's revert semantics
by an `Except` result together with a transaction wrapper that restores the
pre-state on error.  Addresses and uint256 values are modelled as `Nat`
(no arithmetic in the contract can overflow or underflow: the only
subtraction is guarded by a strict comparison).
-/

namespace ArbitrageExecutor

/-- Contract storage: the `Ownable` owner, the `approvedDexRouters` mapping,
and (as seen through `IERC20(token).balanceOf(address(this))`) the contract's
token balances. -/
structure ContractState where
  owner : Nat
  approvedDexRouters : Nat → Bool
  balance : Nat → Nat

/-- The two events the contract can emit. -/
inductive Event where
  | ArbitrageExecuted (token buyDex sellDex amount profit : Nat)
  | FundsWithdrawn (token dst amount : Nat)
deriving DecidableEq

/-- External calls made by the contract, in order. -/
inductive ExtCall where
  | balanceOf (token : Nat)
  | dexCall (dex : Nat)
deriving DecidableEq

/-- Revert reasons of the contract (the `require` messages, the `onlyOwner`
modifier, and reverts bubbled up from external token calls). -/
inductive ExecError where
  | notOwner
  | buyDexNotApproved
  | sellDexNotApproved
  | buyFailed
  | sellFailed
  | noProfit
  | transferReverted
  | approveReverted
deriving DecidableEq

/-- The spec's `AuthorizationError` taxonomy entry: unapproved router or
non-owner caller. -/
def ExecError.isAuthorizationError : ExecError → Bool
  | .notOwner => true
  | .buyDexNotApproved => true
  | .sellDexNotApproved => true
  | _ => false

/-- Outcomes of the two external leg calls in `executeArbitrage`: whether
each low-level `call` returns success, and the contract's token balances
after each call has run (an arbitrary external effect). -/
structure ArbEnv where
  buySuccess : Bool
  sellSuccess : Bool
  balanceAfterBuy : Nat → Nat
  balanceAfterSell : Nat → Nat

/-- Function `executeArbitrage` (ArbritageExecutor.sol, lines 47-75): onlyOwner, the
two router-approval `require`s, `balanceOf` snapshot, buy leg, sell leg,
final `balanceOf`, strict-profit `require`, event emission.  Returns the
trace of external calls made together with either a revert reason or the
post-state and emitted events. -/
def executeArbitrage (s : ContractState) (env : ArbEnv)
    (sender token buyDex sellDex amount : Nat) :
    List ExtCall × Except ExecError (ContractState × List Event) :=
  if sender = s.owner then
    if s.approvedDexRouters buyDex then
      if s.approvedDexRouters sellDex then
        let initialBalance := s.balance token
        if env.buySuccess then
          let s1 : ContractState := { s with balance := env.balanceAfterBuy }
          if env.sellSuccess then
            let s2 : ContractState := { s1 with balance := env.balanceAfterSell }
            let finalBalance := s2.balance token
            if initialBalance < finalBalance then
              let profit := finalBalance - initialBalance
              ([.balanceOf token, .dexCall buyDex, .dexCall sellDex, .balanceOf token],
               .ok (s2, [.ArbitrageExecuted token buyDex sellDex amount profit]))
            else
              ([.balanceOf token, .dexCall buyDex, .dexCall sellDex, .balanceOf token],
               .error .noProfit)
          else
            ([.balanceOf token, .dexCall buyDex, .dexCall sellDex], .error .sellFailed)
        else
          ([.balanceOf token, .dexCall buyDex], .error .buyFailed)
      else ([], .error .sellDexNotApproved)
    else ([], .error .buyDexNotApproved)
  else ([], .error .notOwner)

/-- EVM transaction semantics around `executeArbitrage`: on a revert every
state change is rolled back and no events persist. -/
def executeArbitrageTx (s : ContractState) (env : ArbEnv)
    (sender token buyDex sellDex amount : Nat) :
    ContractState × List Event × Option ExecError :=
  match (executeArbitrage s env sender token buyDex sellDex amount).2 with
  | .ok (s2, evs) => (s2, evs, none)
  | .error e => (s, [], some e)

/-- Function `setDexRouterApproval` (lines 34-36): onlyOwner, writes the
`approvedDexRouters` mapping. -/
def setDexRouterApproval (s : ContractState) (sender router : Nat)
    (approved : Bool) : Except ExecError ContractState :=
  if sender = s.owner then
    .ok { s with approvedDexRouters :=
            fun a => if a = router then approved else s.approvedDexRouters a }
  else .error .notOwner

/-- Outcome of the external `IERC20.transfer` call in `withdrawFunds`:
whether the call reverts, the boolean it returns, and the contract's token
balances after the call. -/
structure TransferEnv where
  reverts : Bool
  returnValue : Bool
  balanceAfter : Nat → Nat

/-- Function `withdrawFunds` (lines 83-86): onlyOwner, performs the ERC20 transfer
(its boolean return value is discarded by the source), then emits
`FundsWithdrawn`. -/
def withdrawFunds (s : ContractState) (env : TransferEnv)
    (sender token dst amount : Nat) :
    Except ExecError (ContractState × List Event) :=
  if sender = s.owner then
    if env.reverts then .error .transferReverted
    else .ok ({ s with balance := env.balanceAfter },
              [.FundsWithdrawn token dst amount])
  else .error .notOwner

/-- Outcome of the external `IERC20.approve` call in `approveToken`. -/
structure ApproveEnv where
  reverts : Bool

/-- Function `approveToken` (lines 94-96): onlyOwner, performs the ERC20 approve call
(which does not touch the contract's own storage). -/
def approveToken (s : ContractState) (env : ApproveEnv)
    (sender token spender amount : Nat) : Except ExecError ContractState :=
  if sender = s.owner then
    if env.reverts then .error .approveReverted else .ok s
  else .error .notOwner

end ArbitrageExecutor

namespace Detector

/-- An active quote for one venue, as used by the Opportunity Detector
(the spec's `PriceQuote` restricted to the fields detection reads). -/
structure Quote where
  venue : String
  bid : Int
  ask : Int
deriving DecidableEq

/-- The spec's `Opportunity` record, restricted to the fields the threshold
invariant speaks about. -/
structure Opportunity where
  buyVenue : String
  sellVenue : String
  estimatedProfit : Int
  estimatedProfitBps : Int
deriving DecidableEq

/-- Modelled from the spec: the detector's candidate generation, which is
not in `src/` (only the settlement contract and the dashboards are).  For
every ordered pair of distinct venues among the active quotes it computes
`grossSpread = sellQuote.bid - buyQuote.ask` and
`estimatedProfit = grossSpread * notional - fee(buy) - fee(sell) - gas`;
the spec does not fix the basis-point formula, so `bps` maps a profit to
its basis-point figure. -/
def candidates (quotes : List Quote) (notional : Int) (fee : String → Int)
    (gas : Int) (bps : Int → Int) : List Opportunity :=
  quotes.flatMap fun vb =>
    quotes.filterMap fun vs =>
      if vb.venue ≠ vs.venue then
        let grossSpread := vs.bid - vb.ask
        let profit := grossSpread * notional - fee vb.venue - fee vs.venue - gas
        some { buyVenue := vb.venue, sellVenue := vs.venue,
               estimatedProfit := profit, estimatedProfitBps := bps profit }
      else none

/-- Modelled from the spec: the detector emits an `Opportunity` only if
`estimatedProfit > 0` and `estimatedProfitBps ≥ minThresholdBps`. -/
def detect (quotes : List Quote) (notional : Int) (fee : String → Int)
    (gas : Int) (bps : Int → Int) (minThresholdBps : Int) :
    List Opportunity :=
  (candidates quotes notional fee gas bps).filter fun o =>
    decide (0 < o.estimatedProfit) &&
    decide (minThresholdBps ≤ o.estimatedProfitBps)

end Detector

namespace Orchestrator

/-- Execution statuses of the spec's `TradeExecution` state machine. -/
inductive Status where
  | pending
  | submitted
  | confirmed
  | reverted
  | failed
deriving DecidableEq

/-- Statuses `CONFIRMED`, `REVERTED` and `FAILED` are the terminal ones. -/
def Status.isTerminal : Status → Bool
  | .confirmed => true
  | .reverted => true
  | .failed => true
  | _ => false

/-- The spec's `TradeExecution` record, restricted to the fields the
at-most-one-concurrent-execution invariant speaks about. -/
structure TradeExecution where
  fingerprint : Nat
  status : Status
deriving DecidableEq

/-- Number of non-terminal executions recorded for a fingerprint. -/
def countNonTerminal (st : List TradeExecution) (fp : Nat) : Nat :=
  (st.filter fun e => e.fingerprint == fp && !e.status.isTerminal).length

/-- Whether some non-terminal execution exists for a fingerprint. -/
def hasNonTerminal (st : List TradeExecution) (fp : Nat) : Bool :=
  st.any fun e => e.fingerprint == fp && !e.status.isTerminal

/-- Modelled from the spec: the Execution Orchestrator is not in `src/`.
`submit(opportunity)` is rejected as a no-op when a non-terminal execution
already exists for the opportunity's fingerprint; on accept it records a
new execution that reaches `SUBMITTED`. -/
def submit (st : List TradeExecution) (fp : Nat) :
    List TradeExecution × Bool :=
  if hasNonTerminal st fp then (st, false)
  else ({ fingerprint := fp, status := .submitted } :: st, true)

/-- Modelled from the spec: resolving a fingerprint's in-flight execution
moves it to a terminal status; terminal records are immutable. -/
def resolve (st : List TradeExecution) (fp : Nat) (t : Status) :
    List TradeExecution :=
  st.map fun e =>
    if e.fingerprint == fp && !e.status.isTerminal && t.isTerminal then
      { e with status := t }
    else e

/-- One orchestrator action: a submission or a terminal transition. -/
inductive Step : List TradeExecution → List TradeExecution → Prop where
  | submit (st : List TradeExecution) (fp : Nat) : Step st (submit st fp).1
  | resolve (st : List TradeExecution) (fp : Nat) (t : Status) :
      Step st (resolve st fp t)

/-- Orchestrator states reachable from the empty execution table. -/
inductive Reachable : List TradeExecution → Prop where
  | init : Reachable []
  | step {st st2 : List TradeExecution} :
      Reachable st → Step st st2 → Reachable st2

end Orchestrator

namespace Dashboard

/-- The per-pair object inside a `market_update` payload; detection state
only reads its `prices` field, whose shape is opaque to the handlers, so it
is a type parameter. -/
structure PairData (P : Type) where
  prices : P

/-- History entry pushed by the `market_update` branch:
`{ timestamp, prices }`. -/
structure HistEntry (P : Type) where
  timestamp : String
  prices : P

/-- An incoming WebSocket message, after `JSON.parse`, keyed by its `type`
field; the payloads of `arbitrage_opportunity` and `trade_execution`
messages are opaque to the handlers. -/
inductive Msg (P O T : Type) where
  | marketUpdate (data : List (String × PairData P))
  | arbOpportunity (data : O)
  | tradeExecution (data : T)

/-- The React state both dashboards maintain through `onmessage`. -/
structure DashState (P O T : Type) where
  marketData : List (String × PairData P)
  opportunities : List O
  trades : List T
  priceHistory : List (HistEntry P)

/-- The `ws.onmessage` handler of `src/pages/index.js` (lines 56-99):
`market_update` stores the payload and, when it contains `selectedPair`,
appends a `{timestamp, prices}` entry, slicing to the last 20 only when
the length exceeds 20; `arbitrage_opportunity` and `trade_execution`
prepend and slice to the first 10 only when the length exceeds 10.
`ts` is the `new Date().toLocaleTimeString()` read at handling time. -/
def onmessageIndex {P O T : Type} (selectedPair ts : String)
    (s : DashState P O T) : Msg P O T → DashState P O T
  | .marketUpdate data =>
    let s1 := { s with marketData := data }
    match data.lookup selectedPair with
    | some pd =>
      let newHistory := s1.priceHistory ++ [{ timestamp := ts, prices := pd.prices }]
      { s1 with priceHistory :=
          if newHistory.length > 20 then
            newHistory.drop (newHistory.length - 20)
          else newHistory }
    | none => s1
  | .arbOpportunity d =>
    let newOpportunities := d :: s.opportunities
    { s with opportunities :=
        if newOpportunities.length > 10 then newOpportunities.take 10
        else newOpportunities }
  | .tradeExecution d =>
    let newTrades := d :: s.trades
    { s with trades :=
        if newTrades.length > 10 then newTrades.take 10 else newTrades }

/-- The `ws.onmessage` handler of `src/frontend/app/page.jsx`
(lines 46-70): same branches, but the history is always `slice(-20)` (the
last 20 entries, or all of them when fewer) and the opportunity and trade
lists are always `slice(0, 10)`. -/
def onmessagePage {P O T : Type} (selectedPair ts : String)
    (s : DashState P O T) : Msg P O T → DashState P O T
  | .marketUpdate data =>
    let s1 := { s with marketData := data }
    match data.lookup selectedPair with
    | some pd =>
      let newHistory := s1.priceHistory ++ [{ timestamp := ts, prices := pd.prices }]
      { s1 with priceHistory := newHistory.drop (newHistory.length - 20) }
    | none => s1
  | .arbOpportunity d =>
    { s with opportunities := (d :: s.opportunities).take 10 }
  | .tradeExecution d =>
    { s with trades := (d :: s.trades).take 10 }

/-- Initial React state of both dashboards: all lists empty. -/
def initState (P O T : Type) : DashState P O T :=
  { marketData := [], opportunities := [], trades := [], priceHistory := [] }

/-- Run the `index.js` handler over a sequence of (arrival time, message)
events. -/
def processIndex {P O T : Type} (selectedPair : String)
    (s : DashState P O T) (msgs : List (String × Msg P O T)) :
    DashState P O T :=
  msgs.foldl (fun st m => onmessageIndex selectedPair m.1 st m.2) s

/-- Run the `page.jsx` handler over a sequence of (arrival time, message)
events. -/
def processPage {P O T : Type} (selectedPair : String)
    (s : DashState P O T) (msgs : List (String × Msg P O T)) :
    DashState P O T :=
  msgs.foldl (fun st m => onmessagePage selectedPair m.1 st m.2) s

/-- The retention bounds both dashboards maintain. -/
def Bounded {P O T : Type} (s : DashState P O T) : Prop :=
  s.opportunities.length ≤ 10 ∧ s.trades.length ≤ 10 ∧
    s.priceHistory.length ≤ 20

end Dashboard

namespace ArbitrageExecutor

/-- Claim C1: when both legs succeed, a settlement with
`finalBalance ≤ initialBalance` reverts with the no-profit error, leaving
the state unchanged and emitting no event; conversely a settlement is
finalized only when the final balance strictly exceeds the initial one. -/
theorem executeArbitrage_profit_invariant (s : ContractState) (env : ArbEnv)
    (token buyDex sellDex amount : Nat)
    (hbuy : s.approvedDexRouters buyDex = true)
    (hsell : s.approvedDexRouters sellDex = true)
    (hbs : env.buySuccess = true) (hss : env.sellSuccess = true) :
    (env.balanceAfterSell token ≤ s.balance token →
      executeArbitrageTx s env s.owner token buyDex sellDex amount =
        (s, [], some ExecError.noProfit)) ∧
    (∀ s2 evs,
      (executeArbitrage s env s.owner token buyDex sellDex amount).2 =
        Except.ok (s2, evs) →
      s.balance token < env.balanceAfterSell token) := by
  constructor
  · intro hle
    simp [executeArbitrageTx, executeArbitrage, hbuy, hsell, hbs, hss,
      Nat.not_lt.mpr hle]
  · intro s2 evs h
    by_cases hlt : s.balance token < env.balanceAfterSell token
    · exact hlt
    · simp [executeArbitrage, hbuy, hsell, hbs, hss, hlt] at h

/-- Witness for C1 at a concrete state: both legs succeed but the balance
does not grow, so the transaction reverts with no event. -/
theorem executeArbitrage_profit_invariant_witness :
    executeArbitrageTx
      { owner := 1, approvedDexRouters := fun _ => true, balance := fun _ => 100 }
      { buySuccess := true, sellSuccess := true,
        balanceAfterBuy := fun _ => 40, balanceAfterSell := fun _ => 100 }
      1 7 2 3 10 =
    ({ owner := 1, approvedDexRouters := fun _ => true, balance := fun _ => 100 },
     [], some ExecError.noProfit) :=
  (executeArbitrage_profit_invariant
      { owner := 1, approvedDexRouters := fun _ => true, balance := fun _ => 100 }
      { buySuccess := true, sellSuccess := true,
        balanceAfterBuy := fun _ => 40, balanceAfterSell := fun _ => 100 }
      7 2 3 10 rfl rfl rfl rfl).1 (by simp)

/-- Claim C2: calling `executeArbitrage` with a buy or sell venue outside
the router allow-list fails with an authorization error, performs no state
change, and performs zero external calls. -/
theorem executeArbitrage_router_allowlist (s : ContractState) (env : ArbEnv)
    (token buyDex sellDex amount : Nat)
    (h : s.approvedDexRouters buyDex = false ∨
         s.approvedDexRouters sellDex = false) :
    ∃ e : ExecError, e.isAuthorizationError = true ∧
      executeArbitrage s env s.owner token buyDex sellDex amount =
        ([], Except.error e) ∧
      executeArbitrageTx s env s.owner token buyDex sellDex amount =
        (s, [], some e) := by
  by_cases hb : s.approvedDexRouters buyDex
  · rcases h with h | h
    · simp [hb] at h
    · exact ⟨.sellDexNotApproved, rfl, by
        simp [executeArbitrage, executeArbitrageTx, hb, h]⟩
  · exact ⟨.buyDexNotApproved, rfl, by
      simp [executeArbitrage, executeArbitrageTx, hb]⟩

/-- Witness for C2 at a concrete state whose allow-list is empty. -/
theorem executeArbitrage_router_allowlist_witness :
    ∃ e : ExecError, e.isAuthorizationError = true ∧
      executeArbitrage
        { owner := 1, approvedDexRouters := fun _ => false, balance := fun _ => 0 }
        { buySuccess := true, sellSuccess := true,
          balanceAfterBuy := fun _ => 0, balanceAfterSell := fun _ => 0 }
        1 7 2 3 10 = ([], Except.error e) ∧
      executeArbitrageTx
        { owner := 1, approvedDexRouters := fun _ => false, balance := fun _ => 0 }
        { buySuccess := true, sellSuccess := true,
          balanceAfterBuy := fun _ => 0, balanceAfterSell := fun _ => 0 }
        1 7 2 3 10 =
        ({ owner := 1, approvedDexRouters := fun _ => false, balance := fun _ => 0 },
         [], some e) :=
  executeArbitrage_router_allowlist
    { owner := 1, approvedDexRouters := fun _ => false, balance := fun _ => 0 }
    { buySuccess := true, sellSuccess := true,
      balanceAfterBuy := fun _ => 0, balanceAfterSell := fun _ => 0 }
    7 2 3 10 (Or.inl rfl)

/-- Claim C3: the two external leg calls run sequentially, buy first and
sell second (visible in the success-path trace), and whenever either leg
call signals failure the entire operation fails atomically: the
transaction ends in an error with zero state change and no event — in
particular the token balance after the call equals the one before it. -/
theorem executeArbitrage_sequential_atomic (s : ContractState) (env : ArbEnv)
    (sender token buyDex sellDex amount : Nat) :
    (∀ r, (executeArbitrage s env sender token buyDex sellDex amount).2 =
        Except.ok r →
      (executeArbitrage s env sender token buyDex sellDex amount).1 =
        [ExtCall.balanceOf token, ExtCall.dexCall buyDex,
         ExtCall.dexCall sellDex, ExtCall.balanceOf token]) ∧
    (env.buySuccess = false ∨ env.sellSuccess = false →
      ∃ e : ExecError,
        executeArbitrageTx s env sender token buyDex sellDex amount =
          (s, [], some e) ∧
        (executeArbitrageTx s env sender token buyDex sellDex
            amount).1.balance token = s.balance token) := by
  constructor
  · intro r h
    unfold executeArbitrage at h ⊢
    dsimp only at h ⊢
    repeat' split at h
    all_goals simp_all
  · intro hleg
    obtain ⟨e, he⟩ :
        ∃ e, (executeArbitrage s env sender token buyDex sellDex amount).2 =
          Except.error e := by
      rcases hleg with hb | hs
      · unfold executeArbitrage
        dsimp only
        repeat' split
        all_goals simp_all
      · unfold executeArbitrage
        dsimp only
        repeat' split
        all_goals simp_all
    have htx : executeArbitrageTx s env sender token buyDex sellDex amount =
        (s, [], some e) := by
      unfold executeArbitrageTx
      rw [he]
    exact ⟨e, htx, by rw [htx]⟩

/-- Witness for C3: a concrete run whose buy leg fails and one whose sell
leg fails each end in an error with the concrete state rolled back and no
event, and a concrete successful run shows the buy-then-sell trace. -/
theorem executeArbitrage_sequential_atomic_witness :
    (∃ e : ExecError,
      executeArbitrageTx
        { owner := 1, approvedDexRouters := fun _ => true, balance := fun _ => 5 }
        { buySuccess := false, sellSuccess := true,
          balanceAfterBuy := fun _ => 0, balanceAfterSell := fun _ => 0 }
        1 7 2 3 10 =
        ({ owner := 1, approvedDexRouters := fun _ => true,
           balance := fun _ => 5 }, [], some e) ∧
      (executeArbitrageTx
        { owner := 1, approvedDexRouters := fun _ => true, balance := fun _ => 5 }
        { buySuccess := false, sellSuccess := true,
          balanceAfterBuy := fun _ => 0, balanceAfterSell := fun _ => 0 }
        1 7 2 3 10).1.balance 7 = 5) ∧
    (∃ e : ExecError,
      executeArbitrageTx
        { owner := 1, approvedDexRouters := fun _ => true, balance := fun _ => 5 }
        { buySuccess := true, sellSuccess := false,
          balanceAfterBuy := fun _ => 5, balanceAfterSell := fun _ => 9 }
        1 7 2 3 10 =
        ({ owner := 1, approvedDexRouters := fun _ => true,
           balance := fun _ => 5 }, [], some e) ∧
      (executeArbitrageTx
        { owner := 1, approvedDexRouters := fun _ => true, balance := fun _ => 5 }
        { buySuccess := true, sellSuccess := false,
          balanceAfterBuy := fun _ => 5, balanceAfterSell := fun _ => 9 }
        1 7 2 3 10).1.balance 7 = 5) ∧
    (executeArbitrage
       { owner := 1, approvedDexRouters := fun _ => true, balance := fun _ => 5 }
       { buySuccess := true, sellSuccess := true,
         balanceAfterBuy := fun _ => 5, balanceAfterSell := fun _ => 9 }
       1 7 2 3 10).1 =
      [ExtCall.balanceOf 7, ExtCall.dexCall 2, ExtCall.dexCall 3,
       ExtCall.balanceOf 7] :=
  by
  refine ⟨?_, ?_, ?_⟩
  · exact (executeArbitrage_sequential_atomic
      { owner := 1, approvedDexRouters := fun _ => true, balance := fun _ => 5 }
      { buySuccess := false, sellSuccess := true,
        balanceAfterBuy := fun _ => 0, balanceAfterSell := fun _ => 0 }
      1 7 2 3 10).2 (Or.inl rfl)
  · exact (executeArbitrage_sequential_atomic
      { owner := 1, approvedDexRouters := fun _ => true, balance := fun _ => 5 }
      { buySuccess := true, sellSuccess := false,
        balanceAfterBuy := fun _ => 5, balanceAfterSell := fun _ => 9 }
      1 7 2 3 10).2 (Or.inr rfl)
  · have h : (executeArbitrage
        { owner := 1, approvedDexRouters := fun _ => true, balance := fun _ => 5 }
        { buySuccess := true, sellSuccess := true,
          balanceAfterBuy := fun _ => 5, balanceAfterSell := fun _ => 9 }
        1 7 2 3 10).2 =
        Except.ok
          ({ owner := 1, approvedDexRouters := fun _ => true,
             balance := fun _ => 9 },
           [Event.ArbitrageExecuted 7 2 3 10 4]) := rfl
    exact (executeArbitrage_sequential_atomic
      { owner := 1, approvedDexRouters := fun _ => true, balance := fun _ => 5 }
      { buySuccess := true, sellSuccess := true,
        balanceAfterBuy := fun _ => 5, balanceAfterSell := fun _ => 9 }
      1 7 2 3 10).1 _ h

/-- Claim C4: a successful `executeArbitrage` emits exactly one
`ArbitrageExecuted` event, whose profit field is the final balance minus
the initial balance of the traded token. -/
theorem executeArbitrage_emits_profit_event (s : ContractState) (env : ArbEnv)
    (sender token buyDex sellDex amount : Nat) (s2 : ContractState)
    (evs : List Event)
    (h : (executeArbitrage s env sender token buyDex sellDex amount).2 =
      Except.ok (s2, evs)) :
    evs = [Event.ArbitrageExecuted token buyDex sellDex amount
            (env.balanceAfterSell token - s.balance token)] := by
  unfold executeArbitrage at h
  dsimp only at h
  repeat' split at h
  all_goals simp_all

/-- Witness for C4: a concrete successful run emits the single event with
profit 9 - 5 = 4. -/
theorem executeArbitrage_emits_profit_event_witness :
    [Event.ArbitrageExecuted 7 2 3 10 4] =
      [Event.ArbitrageExecuted 7 2 3 10 (9 - 5)] := by
  have h : (executeArbitrage
      { owner := 1, approvedDexRouters := fun _ => true, balance := fun _ => 5 }
      { buySuccess := true, sellSuccess := true,
        balanceAfterBuy := fun _ => 5, balanceAfterSell := fun _ => 9 }
      1 7 2 3 10).2 =
      Except.ok
        ({ owner := 1, approvedDexRouters := fun _ => true,
           balance := fun _ => 9 },
         [Event.ArbitrageExecuted 7 2 3 10 4]) := rfl
  exact executeArbitrage_emits_profit_event
    { owner := 1, approvedDexRouters := fun _ => true, balance := fun _ => 5 }
    { buySuccess := true, sellSuccess := true,
      balanceAfterBuy := fun _ => 5, balanceAfterSell := fun _ => 9 }
    1 7 2 3 10
    { owner := 1, approvedDexRouters := fun _ => true, balance := fun _ => 9 }
    [Event.ArbitrageExecuted 7 2 3 10 4] h

/-- Claim C5: every entry point of the contract is owner-only: a caller
other than the owner gets the authorization error and causes no state
change. -/
theorem entryPoints_owner_only (s : ContractState) (env : ArbEnv)
    (tenv : TransferEnv) (aenv : ApproveEnv)
    (sender router token buyDex sellDex dst spender amount : Nat)
    (approved : Bool) (h : sender ≠ s.owner) :
    setDexRouterApproval s sender router approved =
      Except.error ExecError.notOwner ∧
    executeArbitrage s env sender token buyDex sellDex amount =
      ([], Except.error ExecError.notOwner) ∧
    executeArbitrageTx s env sender token buyDex sellDex amount =
      (s, [], some ExecError.notOwner) ∧
    withdrawFunds s tenv sender token dst amount =
      Except.error ExecError.notOwner ∧
    approveToken s aenv sender token spender amount =
      Except.error ExecError.notOwner ∧
    ExecError.notOwner.isAuthorizationError = true := by
  refine ⟨?_, ?_, ?_, ?_, ?_, rfl⟩ <;>
    simp [setDexRouterApproval, executeArbitrage, executeArbitrageTx,
      withdrawFunds, approveToken, h]

/-- Witness for C5 at a concrete non-owner caller. -/
theorem entryPoints_owner_only_witness :
    setDexRouterApproval
      { owner := 1, approvedDexRouters := fun _ => true, balance := fun _ => 0 }
      2 5 true = Except.error ExecError.notOwner :=
  (entryPoints_owner_only
    { owner := 1, approvedDexRouters := fun _ => true, balance := fun _ => 0 }
    { buySuccess := true, sellSuccess := true,
      balanceAfterBuy := fun _ => 0, balanceAfterSell := fun _ => 0 }
    { reverts := false, returnValue := true, balanceAfter := fun _ => 0 }
    { reverts := false }
    2 5 7 2 3 9 8 10 true (by decide)).1

/-- Claim C6: `setDexRouterApproval` is idempotent: a second identical call
by the owner returns the very same state, and the first call sets exactly
the requested entry of the allow-list, leaving every other entry
unchanged. -/
theorem setDexRouterApproval_idempotent (s : ContractState) (router : Nat)
    (approved : Bool) :
    ∃ s1 : ContractState,
      setDexRouterApproval s s.owner router approved = Except.ok s1 ∧
      setDexRouterApproval s1 s1.owner router approved = Except.ok s1 ∧
      s1.approvedDexRouters router = approved ∧
      s1.owner = s.owner ∧ s1.balance = s.balance ∧
      ∀ a, a ≠ router → s1.approvedDexRouters a = s.approvedDexRouters a := by
  refine ⟨{ s with approvedDexRouters :=
      fun a => if a = router then approved else s.approvedDexRouters a },
    ?_, ?_, by simp, rfl, rfl, fun a ha => by simp [ha]⟩
  · simp [setDexRouterApproval]
  · have harr : (fun a => if a = router then approved
        else if a = router then approved else s.approvedDexRouters a) =
        (fun a => if a = router then approved else s.approvedDexRouters a) := by
      funext a
      by_cases ha : a = router <;> simp [ha]
    simp [setDexRouterApproval, harr]

/-- Claim C9: `withdrawFunds` discards the boolean returned by the ERC20
transfer: whenever the transfer call does not revert, the call succeeds and
emits `FundsWithdrawn(token, to, amount)` — for either return value, in
particular `false` with no balance movement. -/
theorem withdrawFunds_ignores_transfer_return (s : ContractState)
    (ret : Bool) (ba : Nat → Nat) (token dst amount : Nat) :
    withdrawFunds s
      { reverts := false, returnValue := ret, balanceAfter := ba }
      s.owner token dst amount =
    Except.ok ({ s with balance := ba },
      [Event.FundsWithdrawn token dst amount]) := by
  simp [withdrawFunds]

end ArbitrageExecutor

namespace Detector

/-- Claim C7: every opportunity the detector emits has strictly positive
estimated profit and meets the basis-point threshold; candidates below
either bound never appear in the output. -/
theorem detect_threshold_invariant (quotes : List Quote) (notional : Int)
    (fee : String → Int) (gas : Int) (bps : Int → Int)
    (minThresholdBps : Int) (o : Opportunity)
    (h : o ∈ detect quotes notional fee gas bps minThresholdBps) :
    0 < o.estimatedProfit ∧ minThresholdBps ≤ o.estimatedProfitBps := by
  have hp := (List.mem_filter.mp h).2
  simp only [Bool.and_eq_true, decide_eq_true_eq] at hp
  exact hp

/-- Witness for C7 on the spec's end-to-end scenario A: venues V1
(bid 100, ask 101) and V2 (bid 103, ask 104) yield the single emitted
opportunity buy-V1/sell-V2 with gross spread 2. -/
theorem detect_threshold_invariant_witness :
    (0 : Int) < 2 ∧ (0 : Int) ≤ 2 := by
  have h : ({ buyVenue := "V1", sellVenue := "V2",
              estimatedProfit := 2, estimatedProfitBps := 2 } : Opportunity) ∈
      detect [{ venue := "V1", bid := 100, ask := 101 },
              { venue := "V2", bid := 103, ask := 104 }]
        1 (fun _ => 0) 0 (fun p => p) 0 := by
    decide
  exact detect_threshold_invariant
    [{ venue := "V1", bid := 100, ask := 101 },
     { venue := "V2", bid := 103, ask := 104 }]
    1 (fun _ => 0) 0 (fun p => p) 0
    { buyVenue := "V1", sellVenue := "V2", estimatedProfit := 2,
      estimatedProfitBps := 2 } h

end Detector

namespace Orchestrator

theorem hasNonTerminal_false_count (st : List TradeExecution) (fp : Nat)
    (h : hasNonTerminal st fp = false) : countNonTerminal st fp = 0 := by
  induction st with
  | nil => rfl
  | cons e rest ih =>
    simp only [hasNonTerminal, List.any_cons, Bool.or_eq_false_iff] at h
    simp only [countNonTerminal, List.filter_cons, h.1]
    exact ih h.2

theorem countNonTerminal_resolve_le (st : List TradeExecution)
    (fp fp2 : Nat) (t : Status) :
    countNonTerminal (resolve st fp2 t) fp ≤ countNonTerminal st fp := by
  induction st with
  | nil => exact Nat.le_refl _
  | cons e rest ih =>
    simp only [resolve, List.map_cons, countNonTerminal, List.filter_cons]
      at ih ⊢
    by_cases hg : (e.fingerprint == fp2 && !e.status.isTerminal &&
        t.isTerminal) = true
    · rw [if_pos hg]
      have ht : t.isTerminal = true := by
        simp only [Bool.and_eq_true] at hg
        exact hg.2
      have : (({ e with status := t } : TradeExecution).fingerprint == fp &&
          !({ e with status := t } : TradeExecution).status.isTerminal) =
          false := by
        simp [ht]
      rw [this]
      by_cases hp : (e.fingerprint == fp && !e.status.isTerminal) = true
      · rw [if_pos hp]
        simp only [List.length_cons]
        exact Nat.le_succ_of_le ih
      · rw [if_neg hp]
        exact ih
    · rw [if_neg hg]
      by_cases hp : (e.fingerprint == fp && !e.status.isTerminal) = true
      · rw [if_pos hp, if_pos hp]
        simpa using ih
      · rw [if_neg hp, if_neg hp]
        exact ih

theorem countNonTerminal_invariant (st : List TradeExecution)
    (h : Reachable st) (fp : Nat) : countNonTerminal st fp ≤ 1 := by
  induction h with
  | init => exact Nat.zero_le 1
  | @step st1 st2 hr hs ih =>
    cases hs with
    | submit fp2 =>
      unfold submit
      by_cases hn : hasNonTerminal st1 fp2 = true
      · rw [if_pos hn]
        exact ih
      · rw [if_neg hn]
        simp only [countNonTerminal, List.filter_cons]
        by_cases hfp : fp2 = fp
        · subst hfp
          have h0 : countNonTerminal st1 fp2 = 0 :=
            hasNonTerminal_false_count st1 fp2 (by simpa using hn)
          simp only [countNonTerminal] at h0
          have hpred : (({ fingerprint := fp2, status := .submitted } :
              TradeExecution).fingerprint == fp2 &&
              !({ fingerprint := fp2, status := .submitted } :
                TradeExecution).status.isTerminal) = true := by
            simp [Status.isTerminal]
          rw [if_pos hpred, List.length_cons, h0]
        · have : (({ fingerprint := fp2, status := .submitted } :
              TradeExecution).fingerprint == fp &&
              !({ fingerprint := fp2, status := .submitted } :
                TradeExecution).status.isTerminal) = false := by
            simp [hfp]
          rw [this]
          exact ih
    | resolve fp2 t =>
      exact Nat.le_trans (countNonTerminal_resolve_le _ fp fp2 t) ih

/-- Claim C8: in every reachable orchestrator state at most one
non-terminal `TradeExecution` exists per fingerprint, and a duplicate
`submit` for a fingerprint whose first submission was accepted (and is
still in flight) is rejected as a no-op, so exactly one of two duplicate
submissions reaches `SUBMITTED`. -/
theorem submit_at_most_one_concurrent (st : List TradeExecution) (fp : Nat)
    (h : Reachable st) :
    countNonTerminal st fp ≤ 1 ∧
    ((submit st fp).2 = true →
      submit (submit st fp).1 fp = ((submit st fp).1, false)) := by
  refine ⟨countNonTerminal_invariant st h fp, fun hacc => ?_⟩
  by_cases hn : hasNonTerminal st fp = true
  · simp [submit, hn] at hacc
  · have h1 : (submit st fp).1 =
        { fingerprint := fp, status := .submitted } :: st := by
      simp [submit, hn]
    rw [h1]
    have h2 : hasNonTerminal
        ({ fingerprint := fp, status := .submitted } :: st) fp = true := by
      simp [hasNonTerminal, Status.isTerminal]
    simp [submit, h2]

/-- Witness for C8: from the empty table, submitting fingerprint 5 is
accepted and the duplicate submission is rejected as a no-op. -/
theorem submit_at_most_one_concurrent_witness :
    countNonTerminal [] 5 ≤ 1 ∧
    ((submit [] 5).2 = true →
      submit (submit [] 5).1 5 = ((submit [] 5).1, false)) :=
  submit_at_most_one_concurrent [] 5 Reachable.init

end Orchestrator

namespace Dashboard

theorem take_ten_eq {α : Type} (l : List α) :
    (if l.length > 10 then l.take 10 else l) = l.take 10 := by
  split
  · rfl
  · rw [List.take_of_length_le (by omega)]

theorem drop_twenty_eq {α : Type} (l : List α) :
    (if l.length > 20 then l.drop (l.length - 20) else l) =
      l.drop (l.length - 20) := by
  split
  · rfl
  · rw [Nat.sub_eq_zero_of_le (by omega), List.drop_zero]

theorem onmessage_handlers_agree {P O T : Type} (selectedPair ts : String)
    (s : DashState P O T) (m : Msg P O T) :
    onmessageIndex selectedPair ts s m = onmessagePage selectedPair ts s m := by
  cases m with
  | marketUpdate data =>
    unfold onmessageIndex onmessagePage
    dsimp only
    cases data.lookup selectedPair with
    | some pd =>
      dsimp only
      rw [drop_twenty_eq]
    | none => rfl
  | arbOpportunity d =>
    unfold onmessageIndex onmessagePage
    dsimp only
    rw [take_ten_eq]
  | tradeExecution d =>
    unfold onmessageIndex onmessagePage
    dsimp only
    rw [take_ten_eq]

theorem processIndex_eq_processPage {P O T : Type} (selectedPair : String)
    (s : DashState P O T) (msgs : List (String × Msg P O T)) :
    processIndex selectedPair s msgs = processPage selectedPair s msgs := by
  induction msgs generalizing s with
  | nil => rfl
  | cons m rest ih =>
    unfold processIndex processPage
    simp only [List.foldl_cons]
    rw [onmessage_handlers_agree]
    exact ih _

theorem onmessagePage_bounded {P O T : Type} (selectedPair ts : String)
    (s : DashState P O T) (m : Msg P O T) (hs : Bounded s) :
    Bounded (onmessagePage selectedPair ts s m) := by
  obtain ⟨h1, h2, h3⟩ := hs
  cases m with
  | marketUpdate data =>
    unfold onmessagePage
    dsimp only
    cases data.lookup selectedPair with
    | some pd =>
      refine ⟨h1, h2, ?_⟩
      simp only [List.length_drop]
      omega
    | none => exact ⟨h1, h2, h3⟩
  | arbOpportunity d =>
    refine ⟨?_, h2, h3⟩
    simp only [onmessagePage, List.length_take]
    omega
  | tradeExecution d =>
    refine ⟨h1, ?_, h3⟩
    simp only [onmessagePage, List.length_take]
    omega

theorem processPage_bounded {P O T : Type} (selectedPair : String)
    (s : DashState P O T) (msgs : List (String × Msg P O T))
    (hs : Bounded s) :
    Bounded (processPage selectedPair s msgs) := by
  induction msgs generalizing s with
  | nil => exact hs
  | cons m rest ih =>
    unfold processPage
    simp only [List.foldl_cons]
    exact ih _ (onmessagePage_bounded selectedPair m.1 s m.2 hs)

/-- Claim C10: the two dashboard implementations are behaviourally
equivalent at the WebSocket message boundary: from the initial empty state,
every sequence of `market_update`, `arbitrage_opportunity` and
`trade_execution` messages yields identical `marketData`, `opportunities`,
`trades` and `priceHistory` in both, and both retain at most the 10 newest
opportunities and trades and the 20 newest price-history entries. -/
theorem dashboards_equivalent (P O T : Type) (selectedPair : String)
    (msgs : List (String × Msg P O T)) :
    processIndex selectedPair (initState P O T) msgs =
      processPage selectedPair (initState P O T) msgs ∧
    (processIndex selectedPair (initState P O T) msgs).opportunities.length
      ≤ 10 ∧
    (processIndex selectedPair (initState P O T) msgs).trades.length ≤ 10 ∧
    (processIndex selectedPair (initState P O T) msgs).priceHistory.length
      ≤ 20 := by
  have heq := processIndex_eq_processPage selectedPair
    (initState P O T) msgs
  have hb := processPage_bounded selectedPair (initState P O T) msgs
    ⟨Nat.zero_le 10, Nat.zero_le 10, Nat.zero_le 20⟩
  rw [heq]
  exact ⟨rfl, hb.1, hb.2.1, hb.2.2⟩

end Dashboard
